import Mathlib

/-!
# SecureTrack dashboard: the `LogDashboard` component of `web_ui.jsx`

A shallow embedding of the state, the event handlers and the derived values of
`src/frontend/src/components/web_ui.jsx`.

* The React state of the component is the record `State`; a handler is a
  function from the state it was called in (and from the outcome of the remote
  call it awaits, if any) to the state after it has completed, together with the
  list of effects it performed (`fetch` calls, `alert`s, `console.error`s), in
  program order.
* A remote call is described by its `Outcome`: either `fetch` rejected, or a
  response arrived, with its `ok` flag (status in 200..299) and the value of
  `response.json()` when the body could be parsed.
* Strings are Lean strings.  The four keywords are ASCII, so containment of a
  keyword in a sequence of code points and in the UTF-16 sequence behind it
  coincide.
-/

namespace SecureTrack

/-! ## Data model -/

/-- One element of the array served by `GET /logs`. -/
structure LogEntry where
  timestamp : String
  message : String
  deriving DecidableEq, Repr

/-- The keys the `logCounts` reduce can write: `"Added"`, `"Modified"`,
`"Deleted"`, `"Renamed"`, `"Other"`. -/
inductive Category where
  | Added
  | Modified
  | Deleted
  | Renamed
  | Other
  deriving DecidableEq, Repr

/-- The property name written for a category. -/
def Category.key : Category → String
  | .Added => "Added"
  | .Modified => "Modified"
  | .Deleted => "Deleted"
  | .Renamed => "Renamed"
  | .Other => "Other"

/-! ## `String.prototype.includes` -/

/-- Does `kw` occur at the very start of `s`? -/
def startsWith : List Char → List Char → Bool
  | _, [] => true
  | [], _ :: _ => false
  | c :: cs, k :: ks => c == k && startsWith cs ks

/-- Does `kw` occur at some position of `s`? -/
def includesChars : List Char → List Char → Bool
  | [], kw => startsWith [] kw
  | c :: cs, kw => startsWith (c :: cs) kw || includesChars cs kw

/-- The call `s.includes(kw)`. -/
def includes (s kw : String) : Bool :=
  includesChars s.data kw.data

/-! ## Classification and `logCounts` (lines 94-106) -/

/-- The conditional cascade computing `type` inside the reduce. -/
def classify (message : String) : Category :=
  if includes message "ADDED" then Category.Added
  else if includes message "MODIFIED" then Category.Modified
  else if includes message "DELETED" then Category.Deleted
  else if includes message "RENAMED" then Category.Renamed
  else Category.Other

/-- The accumulator object of the reduce: own properties in insertion order,
each key present at most once. -/
abbrev Counts := List (Category × Nat)

/-- The read `acc[type]`: `none` stands for `undefined`. -/
def getProp : Counts → Category → Option Nat
  | [], _ => none
  | (k, v) :: rest, c => if k = c then some v else getProp rest c

/-- The write `acc[type] = v`: an existing property keeps its position, a new
one is appended. -/
def setProp : Counts → Category → Nat → Counts
  | [], c, v => [(c, v)]
  | (k, w) :: rest, c, v => if k = c then (k, v) :: rest else (k, w) :: setProp rest c v

/-- The body of the reducer: `acc[type] = (acc[type] || 0) + 1; return acc`. -/
def countStep (acc : Counts) (log : LogEntry) : Counts :=
  let type := classify log.message
  setProp acc type ((getProp acc type).getD 0 + 1)

/-- The value `logs.reduce(..., {})`. -/
def logCounts (logs : List LogEntry) : Counts :=
  logs.foldl countStep []

/-- The array `Object.entries(logCounts).map(([name, value]) => ({ name, value }))`. -/
def chartData (logs : List LogEntry) : List (String × Nat) :=
  (logCounts logs).map fun kv => (kv.1.key, kv.2)

/-! ## The rendered log list (lines 240-244) -/

/-- The call `a.slice()`: the first component is the receiver after the call
(untouched), the second the freshly allocated copy that is returned. -/
def slice {α : Type} (a : List α) : List α × List α :=
  (a, a)

/-- The call `a.reverse()`: it reverses the receiver in place and returns that
same array; the first component is the receiver after the call, the second the
returned array. -/
def reverse {α : Type} (a : List α) : List α × List α :=
  (a.reverse, a.reverse)

/-- The expression `logs.slice().reverse()`: the first component is the `logs`
array after the expression has been evaluated, the second the array handed to
`.map` for rendering. -/
def reversedLogs (logs : List LogEntry) : List LogEntry × List LogEntry :=
  let copied := slice logs
  let flipped := reverse copied.2
  (copied.1, flipped.2)

/-- The variable `logColor` of the render callback. -/
def logColor (log : LogEntry) : String :=
  if includes log.message "ADDED" then "text-green-500"
  else if includes log.message "MODIFIED" then "text-yellow-500"
  else if includes log.message "DELETED" then "text-red-500"
  else if includes log.message "RENAMED" then "text-blue-500"
  else "text-gray-500"

/-! ## Component state, remote outcomes, effects -/

/-- The seven `useState` cells of `LogDashboard` (lines 9-15). -/
structure State where
  logs : List LogEntry
  darkMode : Bool
  loading : Bool
  isMonitoring : Bool
  directoryPath : String
  isValidDirectory : Bool
  selectedDirectory : String
  deriving DecidableEq, Repr

/-- The initial values passed to `useState`. -/
def State.initial : State where
  logs := []
  darkMode := true
  loading := false
  isMonitoring := false
  directoryPath := ""
  isValidDirectory := false
  selectedDirectory := ""

/-- The text rendered after "Monitoring Directory:" (line 198). -/
def monitoringDirectoryLabel (s : State) : String :=
  if s.selectedDirectory = "" then "Not selected" else s.selectedDirectory

/-- A parsed JSON body of which only the `status` property is read; `none`
stands for a missing (`undefined`) property. -/
structure StatusBody where
  status : Option String
  deriving DecidableEq, Repr

/-- The value `response.json()` resolves to, as far as the handlers read it:
`null`, on which reading `.status` throws a `TypeError`, or any other JSON
value, on which the read gives its `status` property. -/
inductive Parsed where
  | null
  | value (data : StatusBody)
  deriving DecidableEq, Repr

/-- A response that reached the client: `ok` is `response.ok` (status in the
range 200..299), `json` the value `response.json()` resolves to, `none` when
that promise rejects because the body is not JSON. -/
structure Response (β : Type) where
  ok : Bool
  json : Option β
  deriving DecidableEq, Repr

/-- What a `fetch` call comes to: the promise rejects (transport failure), or
it resolves to a response. -/
inductive Outcome (β : Type) where
  | rejected
  | response (r : Response β)
  deriving DecidableEq, Repr

/-- What a handler does besides writing state. -/
inductive Effect where
  | fetchGet (url : String)
  | fetchPost (url : String) (directory : Option String)
  | alert (text : String)
  | consoleError (label : String)
  deriving DecidableEq, Repr

/-- Is the effect a `fetch`? -/
def Effect.isFetch : Effect → Bool
  | .fetchGet _ => true
  | .fetchPost _ _ => true
  | _ => false

def logsUrl : String := "http://localhost:5000/logs"
def validateUrl : String := "http://localhost:5000/validate_directory"
def startUrl : String := "http://localhost:5000/start"
def stopUrl : String := "http://localhost:5000/stop"
def clearUrl : String := "http://localhost:5000/clear_logs"

/-- The expression `data.status || "Unknown error"`. -/
def statusOrUnknown (b : StatusBody) : String :=
  match b.status with
  | some t => if t = "" then "Unknown error" else t
  | none => "Unknown error"

/-- The text shown by `alert(data.status)`. -/
def statusText (b : StatusBody) : String :=
  b.status.getD "undefined"

/-! ## Handlers -/

/-- The function `fetchLogs` (lines 21-33), with the body of `GET /logs` read
as an array of log entries.  `response.ok` is not consulted. -/
def fetchLogs (s : State) (o : Outcome (List LogEntry)) : State × List Effect :=
  match o with
  | .response ⟨_, some data⟩ =>
      ({ s with logs := data, loading := false }, [.fetchGet logsUrl])
  | _ =>
      ({ s with loading := false }, [.fetchGet logsUrl, .consoleError "Error fetching logs:"])

/-- The part of `validateDirectory` (lines 43-52) that runs once the `fetch`
has settled.  It runs in the state current at that time: the setter writes one
cell and reads none.  A rejected call, a body that is not JSON and the body
`null` (reading `data.status` throws) all end in the `catch` branch. -/
def validateDirectoryResume (s : State) (o : Outcome Parsed) : State × List Effect :=
  match o with
  | .response ⟨_, some (.value data)⟩ =>
      if data.status = some "valid" then
        ({ s with isValidDirectory := true }, [])
      else
        ({ s with isValidDirectory := false },
          [.alert "Invalid directory. Please enter a valid path."])
  | _ => (s, [.consoleError "Directory validation failed:"])

/-- The function `validateDirectory` (lines 36-53), request and answer taken
together. -/
def validateDirectory (s : State) (dirPath : String) (o : Outcome Parsed) :
    State × List Effect :=
  let r := validateDirectoryResume s o
  (r.1, .fetchPost validateUrl (some dirPath) :: r.2)

/-- The synchronous part of `handleDirectoryChange` (lines 55-58): the path is
stored and the validation request for it is sent. -/
def handleDirectoryChange (s : State) (value : String) : State × List Effect :=
  ({ s with directoryPath := value }, [.fetchPost validateUrl (some value)])

/-- The function `toggleMonitoring` (lines 60-88).  The outcome is that of the
one `fetch` it may issue; it is not consulted when the guard returns early.
The body is parsed before `response.ok` is read, so a response whose body is
not JSON ends in the `catch` branch whatever its status.  On the body `null`
the read `data.status` throws: after `console.error` on the `!response.ok`
branch, and after `setIsMonitoring(!isMonitoring)` on the other, so that the
cell is flipped and the `catch` branch runs.  The handler reads the cells of
the render it was created in and is taken to run to completion before the
next event. -/
def toggleMonitoring (s : State) (o : Outcome Parsed) : State × List Effect :=
  if !s.isValidDirectory then
    (s, [.alert "Please provide a valid directory before starting monitoring."])
  else
    let url := if s.isMonitoring then stopUrl else startUrl
    let sent := Effect.fetchPost url (some s.directoryPath)
    match o with
    | .response ⟨ok, some (.value data)⟩ =>
        if !ok then
          (s, [sent, .consoleError "Error toggling monitoring:",
            .alert ("Error: " ++ statusOrUnknown data)])
        else
          ({ s with isMonitoring := !s.isMonitoring }, [sent, .alert (statusText data)])
    | .response ⟨ok, some .null⟩ =>
        if !ok then
          (s, [sent, .consoleError "Error toggling monitoring:",
            .consoleError "Request failed:", .alert "Failed to connect to the server."])
        else
          ({ s with isMonitoring := !s.isMonitoring },
            [sent, .consoleError "Request failed:", .alert "Failed to connect to the server."])
    | _ =>
        (s, [sent, .consoleError "Request failed:", .alert "Failed to connect to the server."])

/-- The function `clearLogs` (lines 108-128).  The body is parsed only on the
`!response.ok` branch; when it is `null` the read `errorData.status` throws
after `console.error` and the `catch` branch runs. -/
def clearLogs (s : State) (o : Outcome Parsed) : State × List Effect :=
  let sent := Effect.fetchPost clearUrl none
  match o with
  | .response ⟨true, _⟩ =>
      ({ s with logs := [] }, [sent, .alert "Logs cleared successfully!"])
  | .response ⟨false, some (.value errorData)⟩ =>
      (s, [sent, .consoleError "Error clearing logs:",
        .alert ("Error: " ++ statusOrUnknown errorData)])
  | .response ⟨false, some .null⟩ =>
      (s, [sent, .consoleError "Error clearing logs:",
        .consoleError "Request failed:", .alert "Failed to connect to the server."])
  | _ =>
      (s, [sent, .consoleError "Request failed:", .alert "Failed to connect to the server."])

/-! ## Interleaving of path changes, validation answers and toggles -/

/-- The three cells the validation protocol involves, inside the full state,
with the bookkeeping needed to speak about it: the validation requests sent
and not yet answered, every path entered so far, and the answers that have
arrived, each with the path its request was sent for, most recent first. -/
structure Model where
  st : State
  inflight : List String
  entered : List String
  answers : List (String × Outcome Parsed)
  deriving DecidableEq, Repr

/-- The model of a freshly mounted component. -/
def Model.initial : Model where
  st := State.initial
  inflight := []
  entered := []
  answers := []

/-- Something happens: the input changes to `p`; the answer to a validation
request sent for `p` arrives; the button is pressed and the call it issues
settles with `o`. -/
inductive Event where
  | pathChange (p : String)
  | validationOutcome (p : String) (o : Outcome Parsed)
  | toggle (o : Outcome Parsed)
  deriving DecidableEq, Repr

/-- The verdict in force: the most recent answer that reached one of the two
`setIsValidDirectory` calls, with the path its request was sent for.  Rejected
calls, unparsable bodies and `null` bodies write nothing and are skipped. -/
def verdictInForce : List (String × Outcome Parsed) → Option (String × StatusBody)
  | [] => none
  | (p, .response ⟨_, some (.value data)⟩) :: _ => some (p, data)
  | _ :: rest => verdictInForce rest

/-- One event.  An answer can only arrive for a request that is in flight;
answers arrive in any order. -/
def step (m : Model) : Event → Option (Model × List Effect)
  | .pathChange p =>
      let r := handleDirectoryChange m.st p
      some ({ m with st := r.1, inflight := m.inflight ++ [p], entered := m.entered ++ [p] }, r.2)
  | .validationOutcome p o =>
      if p ∈ m.inflight then
        let r := validateDirectoryResume m.st o
        some ({ m with
                st := r.1
                inflight := m.inflight.erase p
                answers := (p, o) :: m.answers }, r.2)
      else none
  | .toggle o =>
      let r := toggleMonitoring m.st o
      some ({ m with st := r.1 }, r.2)

/-- A sequence of events from `m`. -/
def run (m : Model) : List Event → Option Model
  | [] => some m
  | e :: es =>
      match step m e with
      | some r => run r.1 es
      | none => none

/-- Pressing the button in state `s` sends `POST /start` for directory `d`. -/
def issuesStart (s : State) (o : Outcome Parsed) (d : String) : Prop :=
  Effect.fetchPost startUrl (some d) ∈ (toggleMonitoring s o).2

instance (s : State) (o : Outcome Parsed) (d : String) : Decidable (issuesStart s o d) := by
  unfold issuesStart; infer_instance

/-- The answer `{status: "valid"}` with a 2xx status. -/
def validAnswer : Outcome Parsed :=
  .response ⟨true, some (.value ⟨some "valid"⟩)⟩

/-- The answer `{status: "invalid"}` with a 2xx status. -/
def invalidAnswer : Outcome Parsed :=
  .response ⟨true, some (.value ⟨some "invalid"⟩)⟩

/-- A 2xx answer carrying the JSON body `data`, not `null`. -/
def okAnswer (data : StatusBody) : Outcome Parsed :=
  .response ⟨true, some (.value data)⟩

/-- A 2xx answer whose body parses as JSON, `null` included. -/
def parsedAnswer (body : Parsed) : Outcome Parsed :=
  .response ⟨true, some body⟩

/-- A 2xx answer whose body is not JSON, an empty body for one. -/
def unparsableAnswer : Outcome Parsed :=
  .response ⟨true, none⟩

/-- The claim on a start request for `d`: the verdict in force is a "valid"
answer to the validation request sent for `d` itself. -/
def startAuthorised (m : Model) (d : String) : Prop :=
  ∃ data, verdictInForce m.answers = some (d, data) ∧ data.status = some "valid"

/-- What holds of every reachable model: the validity flag is what the verdict
in force says, and requests and answers are for paths that were entered. -/
structure Inv (m : Model) : Prop where
  flag : m.st.isValidDirectory = true ↔
    ∃ q data, verdictInForce m.answers = some (q, data) ∧ data.status = some "valid"
  inflight_entered : ∀ p ∈ m.inflight, p ∈ m.entered
  answers_entered : ∀ pa ∈ m.answers, pa.1 ∈ m.entered

/-! ## Auxiliary notions for the statements -/

/-- The number of entries of `logs` that classify to `c`. -/
def countOf (c : Category) (logs : List LogEntry) : Nat :=
  (logs.filter fun log => classify log.message = c).length

/-- The sum of the stored counts. -/
def total (acc : Counts) : Nat :=
  (acc.map Prod.snd).sum

/-- The property names of the accumulator, in insertion order. -/
def keys (acc : Counts) : List Category :=
  acc.map Prod.fst

end SecureTrack

namespace SecureTrack

/-! ## Facts about the accumulator object -/

theorem getProp_setProp (acc : Counts) (c d : Category) (v : Nat) :
    getProp (setProp acc c v) d = if c = d then some v else getProp acc d := by
  induction acc with
  | nil => simp [setProp, getProp]
  | cons kv rest ih =>
    obtain ⟨k, w⟩ := kv
    by_cases hk : k = c
    · subst hk
      by_cases hd : k = d <;> simp [setProp, getProp, hd]
    · by_cases hd : k = d
      · subst hd
        have hne : ¬ c = k := fun h => hk h.symm
        simp [setProp, getProp, hk, hne]
      · simp [setProp, getProp, hk, hd, ih]

theorem total_setProp (acc : Counts) (c : Category) (v : Nat) :
    total (setProp acc c v) + (getProp acc c).getD 0 = total acc + v := by
  induction acc with
  | nil => simp [setProp, getProp, total]
  | cons kv rest ih =>
    obtain ⟨k, w⟩ := kv
    by_cases hk : k = c
    · simp [setProp, getProp, total, hk]
      omega
    · simp only [total] at ih
      simp [setProp, getProp, total, hk]
      omega

theorem keys_setProp (acc : Counts) (c : Category) (v : Nat) :
    keys (setProp acc c v) = if c ∈ keys acc then keys acc else keys acc ++ [c] := by
  induction acc with
  | nil => simp [setProp, keys]
  | cons kv rest ih =>
    obtain ⟨k, w⟩ := kv
    simp only [keys] at ih
    by_cases hk : k = c
    · simp [setProp, keys, hk]
    · have hne : ¬ c = k := fun h => hk h.symm
      by_cases hm : c ∈ List.map Prod.fst rest
      · simp [setProp, keys, hk, hne, ih, hm]
      · simp [setProp, keys, hk, hne, ih, hm]

theorem keys_setProp_nodup (acc : Counts) (c : Category) (v : Nat) (h : (keys acc).Nodup) :
    (keys (setProp acc c v)).Nodup := by
  rw [keys_setProp]
  by_cases hm : c ∈ keys acc
  · simpa [hm] using h
  · simp only [hm, if_false]
    exact List.Nodup.append h (List.nodup_singleton c) (by simpa using hm)

theorem mem_iff_getProp (acc : Counts) (h : (keys acc).Nodup) (c : Category) (n : Nat) :
    (c, n) ∈ acc ↔ getProp acc c = some n := by
  induction acc with
  | nil => simp [getProp]
  | cons kv rest ih =>
    obtain ⟨k, w⟩ := kv
    simp only [keys, List.map_cons, List.nodup_cons] at h
    have ih1 := ih h.2
    by_cases hk : k = c
    · subst hk
      have hnot : (k, n) ∉ rest := fun hmem => h.1 (List.mem_map.mpr ⟨(k, n), hmem, rfl⟩)
      simp [getProp, hnot]
      exact eq_comm
    · have hne : ¬ c = k := fun h => hk h.symm
      simp [getProp, hk, hne, ih1]

theorem countOf_cons (c : Category) (log : LogEntry) (logs : List LogEntry) :
    countOf c (log :: logs) = (if classify log.message = c then 1 else 0) + countOf c logs := by
  by_cases h : classify log.message = c
  · simp [countOf, List.filter_cons, h]
    omega
  · simp [countOf, List.filter_cons, h]

theorem getProp_foldl (logs : List LogEntry) (acc : Counts) (c : Category) :
    getProp (logs.foldl countStep acc) c =
      if countOf c logs = 0 then getProp acc c
      else some ((getProp acc c).getD 0 + countOf c logs) := by
  induction logs generalizing acc with
  | nil => simp [countOf]
  | cons log rest ih =>
    rw [List.foldl_cons, ih, countOf_cons]
    simp only [countStep, getProp_setProp]
    by_cases h : classify log.message = c
    · subst h
      by_cases h0 : countOf (classify log.message) rest = 0
      · simp [h0]
      · simp [h0]
        omega
    · by_cases h0 : countOf c rest = 0 <;> simp [h, h0]

theorem total_foldl (logs : List LogEntry) (acc : Counts) :
    total (logs.foldl countStep acc) = total acc + logs.length := by
  induction logs generalizing acc with
  | nil => simp
  | cons log rest ih =>
    rw [List.foldl_cons, ih]
    have h := total_setProp acc (classify log.message)
      ((getProp acc (classify log.message)).getD 0 + 1)
    simp only [countStep, List.length_cons]
    omega

theorem keys_foldl_nodup (logs : List LogEntry) (acc : Counts) (h : (keys acc).Nodup) :
    (keys (logs.foldl countStep acc)).Nodup := by
  induction logs generalizing acc with
  | nil => simpa using h
  | cons log rest ih =>
    rw [List.foldl_cons]
    exact ih _ (keys_setProp_nodup acc _ _ h)

/-! ## Classification and counting -/

/-- C1: classification is decided by the first keyword found, in the order
ADDED, MODIFIED, DELETED, RENAMED.  For every message the category is Added
exactly when the message contains "ADDED"; Modified exactly when it contains
"MODIFIED" and not "ADDED"; Deleted exactly when it contains "DELETED" and
neither of the two earlier keywords; Renamed exactly when it contains
"RENAMED" and none of the three earlier ones; Other exactly when it contains
none of the four.  In particular a message containing both "ADDED" and
"MODIFIED" is Added. -/
theorem classify_first_match (message : String) :
    (classify message = Category.Added ↔ includes message "ADDED" = true) ∧
    (classify message = Category.Modified ↔
      includes message "MODIFIED" = true ∧ includes message "ADDED" = false) ∧
    (classify message = Category.Deleted ↔
      includes message "DELETED" = true ∧ includes message "ADDED" = false ∧
        includes message "MODIFIED" = false) ∧
    (classify message = Category.Renamed ↔
      includes message "RENAMED" = true ∧ includes message "ADDED" = false ∧
        includes message "MODIFIED" = false ∧ includes message "DELETED" = false) ∧
    (classify message = Category.Other ↔
      includes message "ADDED" = false ∧ includes message "MODIFIED" = false ∧
        includes message "DELETED" = false ∧ includes message "RENAMED" = false) ∧
    (includes message "ADDED" = true → includes message "MODIFIED" = true →
      classify message = Category.Added) := by
  unfold classify
  cases includes message "ADDED" <;> cases includes message "MODIFIED" <;>
    cases includes message "DELETED" <;> cases includes message "RENAMED" <;> simp

/-- C1, at the message "MODIFIED then ADDED": both keywords occur, the category
is Added. -/
theorem classify_first_match_witness :
    classify "MODIFIED then ADDED" = Category.Added :=
  (classify_first_match "MODIFIED then ADDED").2.2.2.2.2 (by decide) (by decide)

/-- C2: `logCounts` is the sparse tally of the entries by category.  Reading a
category gives nothing when no entry classifies to it and the number of such
entries otherwise; a pair (category, count) is stored exactly when the count is
the number of entries of that category and is at least 1; no category is stored
twice; the stored counts add up to the number of entries; and for the three
entries "ADDED file.txt", "DELETED old.log", "MODIFIED a.txt" the object is
exactly Added 1, Deleted 1, Modified 1. -/
theorem logCounts_sparse_tally (logs : List LogEntry) :
    (∀ c, getProp (logCounts logs) c =
      if countOf c logs = 0 then none else some (countOf c logs)) ∧
    (∀ c n, (c, n) ∈ logCounts logs ↔ (n = countOf c logs ∧ 1 ≤ n)) ∧
    (∀ c, c ∈ keys (logCounts logs) ↔ ∃ log ∈ logs, classify log.message = c) ∧
    (keys (logCounts logs)).Nodup ∧
    total (logCounts logs) = logs.length ∧
    logCounts [⟨"t1", "ADDED file.txt"⟩, ⟨"t2", "DELETED old.log"⟩, ⟨"t3", "MODIFIED a.txt"⟩]
      = [(Category.Added, 1), (Category.Deleted, 1), (Category.Modified, 1)] := by
  have hget : ∀ c, getProp (logCounts logs) c =
      if countOf c logs = 0 then none else some (countOf c logs) := by
    intro c
    simp [logCounts, getProp_foldl, getProp]
  have hnodup : (keys (logCounts logs)).Nodup :=
    keys_foldl_nodup logs [] (by simp [keys])
  have hmem : ∀ c n, (c, n) ∈ logCounts logs ↔ (n = countOf c logs ∧ 1 ≤ n) := by
    intro c n
    rw [mem_iff_getProp _ hnodup, hget]
    by_cases h0 : countOf c logs = 0
    · simp [h0]
    · simp [h0]
      constructor
      · intro h
        omega
      · intro h
        omega
  refine ⟨hget, hmem, ?_, hnodup, ?_, by decide⟩
  · intro c
    have hpos : (0 < countOf c logs) ↔ ∃ log ∈ logs, classify log.message = c := by
      simp [countOf, List.length_pos_iff_exists_mem]
    rw [← hpos]
    constructor
    · intro hc
      obtain ⟨kv, hkv, rfl⟩ := List.mem_map.mp hc
      have := (hmem kv.1 kv.2).mp hkv
      omega
    · intro hc
      have : (c, countOf c logs) ∈ logCounts logs := (hmem c _).mpr ⟨rfl, hc⟩
      exact List.mem_map.mpr ⟨_, this, rfl⟩
  · rw [logCounts, total_foldl]
    simp [total]

/-- C3: the array rendered by `logs.slice().reverse()` is the exact reverse of
the stored one.  It has the same length, its element at index i is the stored
element at index length - 1 - i, applying the expression to its own result
gives back the stored order, and evaluating it leaves the stored array as it
was. -/
theorem reversedLogs_exact_reverse (logs : List LogEntry) :
    (reversedLogs logs).2.length = logs.length ∧
    (∀ i, i < logs.length → (reversedLogs logs).2[i]? = logs[logs.length - 1 - i]?) ∧
    (∀ i, logs.length ≤ i → (reversedLogs logs).2[i]? = none) ∧
    (reversedLogs (reversedLogs logs).2).2 = logs ∧
    (reversedLogs logs).1 = logs := by
  refine ⟨by simp [reversedLogs, reverse, slice], ?_, ?_, ?_, ?_⟩
  · intro i hi
    simpa [reversedLogs, reverse, slice] using List.getElem?_reverse hi
  · intro i hi
    simp [reversedLogs, reverse, slice, hi]
  · simp [reversedLogs, reverse, slice]
  · simp [reversedLogs, slice]

/-- C3, at the three entries of the scenario: index 0 of the rendered array is
the entry stored last. -/
theorem reversedLogs_exact_reverse_witness :
    (reversedLogs [⟨"t1", "ADDED file.txt"⟩, ⟨"t2", "DELETED old.log"⟩,
        ⟨"t3", "MODIFIED a.txt"⟩]).2[0]?
      = [(⟨"t1", "ADDED file.txt"⟩ : LogEntry), ⟨"t2", "DELETED old.log"⟩,
          ⟨"t3", "MODIFIED a.txt"⟩][3 - 1 - 0]? :=
  (reversedLogs_exact_reverse [⟨"t1", "ADDED file.txt"⟩, ⟨"t2", "DELETED old.log"⟩,
    ⟨"t3", "MODIFIED a.txt"⟩]).2.1 0 (by decide)

/-! ## Handlers: what they write -/

theorem toggleMonitoring_keeps_other_cells (s : State) (o : Outcome Parsed) :
    (toggleMonitoring s o).1.selectedDirectory = s.selectedDirectory ∧
    (toggleMonitoring s o).1.directoryPath = s.directoryPath ∧
    (toggleMonitoring s o).1.isValidDirectory = s.isValidDirectory ∧
    (toggleMonitoring s o).1.logs = s.logs := by
  obtain ⟨logs, dark, loading, mon, path, valid, sel⟩ := s
  cases valid
  · simp [toggleMonitoring]
  · rcases o with _ | ⟨⟨_ | _, _ | (_ | data)⟩⟩ <;> simp [toggleMonitoring]

theorem fetchLogs_keeps_logs_on_reject (s : State) :
    (fetchLogs s Outcome.rejected).1.logs = s.logs := by
  simp [fetchLogs]

theorem fetchLogs_keeps_logs_on_unparsable (s : State) (ok : Bool) :
    (fetchLogs s (Outcome.response ⟨ok, none⟩)).1.logs = s.logs := by
  simp [fetchLogs]

theorem fetchLogs_stores_any_parsed_body (s : State) (ok : Bool) (data : List LogEntry) :
    (fetchLogs s (Outcome.response ⟨ok, some data⟩)).1.logs = data := by
  simp [fetchLogs]

/-- C4: the path is entered as "/tmp", its validation is answered
`{status: "valid"}`, the button is pressed and `POST /start` is answered 2xx.
The request is sent for "/tmp" and the session is monitoring, but
`selectedDirectory` is still the empty string and the page shows
"Not selected": no handler calls `setSelectedDirectory`. -/
theorem toggleMonitoring_start_does_not_record_directory :
    (toggleMonitoring
        (validateDirectoryResume (handleDirectoryChange State.initial "/tmp").1 validAnswer).1
        (okAnswer ⟨some "Monitoring started"⟩)).1.isMonitoring = true ∧
    (toggleMonitoring
        (validateDirectoryResume (handleDirectoryChange State.initial "/tmp").1 validAnswer).1
        (okAnswer ⟨some "Monitoring started"⟩)).2
      = [Effect.fetchPost startUrl (some "/tmp"), Effect.alert "Monitoring started"] ∧
    (toggleMonitoring
        (validateDirectoryResume (handleDirectoryChange State.initial "/tmp").1 validAnswer).1
        (okAnswer ⟨some "Monitoring started"⟩)).1.selectedDirectory = "" ∧
    monitoringDirectoryLabel (toggleMonitoring
        (validateDirectoryResume (handleDirectoryChange State.initial "/tmp").1 validAnswer).1
        (okAnswer ⟨some "Monitoring started"⟩)).1 = "Not selected" := by
  decide

/-- C5: one entry is stored and `GET /logs` is answered with a non-2xx status
and the JSON body `[]`.  `fetchLogs` stores the body: the entry is gone. -/
theorem fetchLogs_non2xx_replaces_logs :
    (fetchLogs { State.initial with logs := [⟨"t1", "ADDED file.txt"⟩] }
        (Outcome.response ⟨false, some []⟩)).1.logs = [] ∧
    (fetchLogs { State.initial with logs := [⟨"t1", "ADDED file.txt"⟩] }
        (Outcome.response ⟨false, some []⟩)).2 = [Effect.fetchGet logsUrl] := by
  decide

/-- C6: "/tmp" is validated and monitoring is started, then the path is
changed to "/x" and that validation is answered `{status: "invalid"}`.  The
session is monitoring and the validity flag is false.  Pressing the button now
sends no `POST /stop`: the guard of lines 61-64, whose alert speaks of
starting, returns first, and the session stays monitoring whatever the remote
stop would have answered. -/
theorem toggleMonitoring_stop_blocked_by_guard :
    Option.map Model.st (run Model.initial
        [Event.pathChange "/tmp", Event.validationOutcome "/tmp" validAnswer,
         Event.toggle (okAnswer ⟨some "Monitoring started"⟩),
         Event.pathChange "/x", Event.validationOutcome "/x" invalidAnswer])
      = some { State.initial with isMonitoring := true, directoryPath := "/x" } ∧
    (toggleMonitoring { State.initial with isMonitoring := true, directoryPath := "/x" }
        (okAnswer ⟨some "Monitoring stopped"⟩)).1.isMonitoring = true ∧
    (toggleMonitoring { State.initial with isMonitoring := true, directoryPath := "/x" }
        (okAnswer ⟨some "Monitoring stopped"⟩)).2
      = [Effect.alert "Please provide a valid directory before starting monitoring."] := by
  decide

theorem toggleMonitoring_stop_when_valid (s : State) (o : Outcome Parsed)
    (hm : s.isMonitoring = true) (hv : s.isValidDirectory = true) :
    (toggleMonitoring s o).2.filter Effect.isFetch
        = [Effect.fetchPost stopUrl (some s.directoryPath)] ∧
    ∀ body, o = parsedAnswer body → (toggleMonitoring s o).1.isMonitoring = false := by
  obtain ⟨logs, dark, loading, mon, path, valid, sel⟩ := s
  simp only at hm hv
  subst hm hv
  constructor
  · rcases o with _ | ⟨⟨_ | _, _ | (_ | data)⟩⟩ <;> simp [toggleMonitoring, Effect.isFetch]
  · intro body hb
    subst hb
    cases body <;> simp [toggleMonitoring, parsedAnswer]

/-- C8: while the validity flag is false, which it is initially, pressing the
button changes nothing: the state after `toggleMonitoring` is the state before
it, in particular `isMonitoring`, `directoryPath`, `selectedDirectory`,
`isValidDirectory` and `logs`, and the only effect is the alert; no request is
sent. -/
theorem toggleMonitoring_rejected_when_not_valid (s : State) (o : Outcome Parsed)
    (h : s.isValidDirectory = false) :
    (toggleMonitoring s o).1 = s ∧
    (toggleMonitoring s o).2
      = [Effect.alert "Please provide a valid directory before starting monitoring."] ∧
    (∀ e ∈ (toggleMonitoring s o).2, e.isFetch = false) ∧
    State.initial.isValidDirectory = false := by
  simp [toggleMonitoring, h, Effect.isFetch, State.initial]

/-- C8, at the scenario: "/nope" is entered, its validation is answered
`{status: "invalid"}`, the button is pressed; the session stays stopped. -/
theorem toggleMonitoring_rejected_when_not_valid_witness :
    (toggleMonitoring
        (validateDirectoryResume (handleDirectoryChange State.initial "/nope").1
          invalidAnswer).1
        (okAnswer ⟨some "Monitoring started"⟩)).1.isMonitoring = false :=
  (toggleMonitoring_rejected_when_not_valid
      (validateDirectoryResume (handleDirectoryChange State.initial "/nope").1 invalidAnswer).1
      (okAnswer ⟨some "Monitoring started"⟩) (by decide)).1 ▸ (by decide)

/-- C9: `clearLogs` empties the stored logs only after a 2xx answer.  When the
call is rejected or answered non-2xx (with or without a JSON body) the whole
state, the logs included, is as before; after a 2xx answer the logs are empty;
in every case `isMonitoring`, `isValidDirectory` and `directoryPath` are
unchanged. -/
theorem clearLogs_pessimistic (s : State) (o : Outcome Parsed) :
    (o = Outcome.rejected → (clearLogs s o).1 = s) ∧
    (∀ body, o = Outcome.response ⟨false, body⟩ → (clearLogs s o).1 = s) ∧
    (∀ body, o = Outcome.response ⟨true, body⟩ → (clearLogs s o).1.logs = []) ∧
    (clearLogs s o).1.isMonitoring = s.isMonitoring ∧
    (clearLogs s o).1.isValidDirectory = s.isValidDirectory ∧
    (clearLogs s o).1.directoryPath = s.directoryPath := by
  rcases o with _ | ⟨⟨_ | _, _ | (_ | data)⟩⟩ <;> simp [clearLogs]

/-- C9, at one stored entry and a non-2xx answer `{status: "busy"}`: the entry
is still stored. -/
theorem clearLogs_pessimistic_witness :
    (clearLogs { State.initial with logs := [⟨"t1", "ADDED file.txt"⟩] }
        (Outcome.response ⟨false, some (Parsed.value ⟨some "busy"⟩)⟩)).1
      = { State.initial with logs := [⟨"t1", "ADDED file.txt"⟩] } :=
  (clearLogs_pessimistic { State.initial with logs := [⟨"t1", "ADDED file.txt"⟩] }
    (Outcome.response ⟨false, some (Parsed.value ⟨some "busy"⟩)⟩)).2.1 _ rfl

/-- C10 as stated fails: "/tmp" is entered and valid, the session is stopped,
and `POST /start` is answered with a 2xx status and a body that is not JSON.
`response.json()` throws before `response.ok` is read, so the first press
leaves the session stopped, and the second press sends `POST /start` again,
not `POST /stop`. -/
theorem toggleMonitoring_round_trip_counterexample :
    (toggleMonitoring { State.initial with directoryPath := "/tmp", isValidDirectory := true }
        unparsableAnswer).1.isMonitoring = false ∧
    (toggleMonitoring { State.initial with directoryPath := "/tmp", isValidDirectory := true }
        unparsableAnswer).2
      = [Effect.fetchPost startUrl (some "/tmp"), Effect.consoleError "Request failed:",
         Effect.alert "Failed to connect to the server."] ∧
    (toggleMonitoring
        (toggleMonitoring { State.initial with directoryPath := "/tmp", isValidDirectory := true }
          unparsableAnswer).1
        unparsableAnswer).2.filter Effect.isFetch
      = [Effect.fetchPost startUrl (some "/tmp")] := by
  decide

/-- C10, amended: from a stopped session with the validity flag true, two
presses of the button whose calls are both answered 2xx with a body that
parses as JSON go through monitoring and back.  The first sends `POST /start`
and nothing else and ends monitoring, the second sends `POST /stop` and
nothing else and ends stopped, and the state after the second is the state
before the first: `selectedDirectory`, `directoryPath`, `isValidDirectory` and
`logs` included. -/
theorem toggleMonitoring_round_trip (s : State) (b1 b2 : Parsed)
    (hs : s.isMonitoring = false) (hv : s.isValidDirectory = true) :
    (toggleMonitoring s (parsedAnswer b1)).1.isMonitoring = true ∧
    (toggleMonitoring s (parsedAnswer b1)).2.filter Effect.isFetch
      = [Effect.fetchPost startUrl (some s.directoryPath)] ∧
    (toggleMonitoring (toggleMonitoring s (parsedAnswer b1)).1 (parsedAnswer b2)).1.isMonitoring
      = false ∧
    (toggleMonitoring (toggleMonitoring s (parsedAnswer b1)).1
        (parsedAnswer b2)).2.filter Effect.isFetch
      = [Effect.fetchPost stopUrl (some s.directoryPath)] ∧
    (toggleMonitoring (toggleMonitoring s (parsedAnswer b1)).1
        (parsedAnswer b2)).1.selectedDirectory = s.selectedDirectory ∧
    (toggleMonitoring (toggleMonitoring s (parsedAnswer b1)).1 (parsedAnswer b2)).1.directoryPath
      = s.directoryPath ∧
    (toggleMonitoring (toggleMonitoring s (parsedAnswer b1)).1
        (parsedAnswer b2)).1.isValidDirectory = s.isValidDirectory ∧
    (toggleMonitoring (toggleMonitoring s (parsedAnswer b1)).1 (parsedAnswer b2)).1.logs
      = s.logs ∧
    (toggleMonitoring (toggleMonitoring s (parsedAnswer b1)).1 (parsedAnswer b2)).1 = s := by
  obtain ⟨logs, dark, loading, mon, path, valid, sel⟩ := s
  simp only at hs hv
  subst hs hv
  cases b1 <;> cases b2 <;> simp [toggleMonitoring, parsedAnswer, Effect.isFetch]

/-- C10 amended, at the state reached by entering "/tmp" and having it
validated, with the answers `{status: "Monitoring started"}` and `null`. -/
theorem toggleMonitoring_round_trip_witness :
    (toggleMonitoring (toggleMonitoring
        { State.initial with directoryPath := "/tmp", isValidDirectory := true }
        (parsedAnswer (Parsed.value ⟨some "Monitoring started"⟩))).1
      (parsedAnswer Parsed.null)).1
      = { State.initial with directoryPath := "/tmp", isValidDirectory := true } :=
  (toggleMonitoring_round_trip
    { State.initial with directoryPath := "/tmp", isValidDirectory := true }
    (Parsed.value ⟨some "Monitoring started"⟩) Parsed.null rfl rfl).2.2.2.2.2.2.2.2

/-! ## The validation protocol -/

theorem verdictInForce_entered (answers : List (String × Outcome Parsed))
    (q : String) (data : StatusBody) (h : verdictInForce answers = some (q, data)) :
    ∃ pa ∈ answers, pa.1 = q := by
  induction answers with
  | nil => simp [verdictInForce] at h
  | cons a rest ih =>
    obtain ⟨p, o⟩ := a
    rcases o with _ | ⟨⟨ok, _ | (_ | body)⟩⟩
    · simp only [verdictInForce] at h
      obtain ⟨pa, hpa, hq⟩ := ih h
      exact ⟨pa, List.mem_cons_of_mem _ hpa, hq⟩
    · simp only [verdictInForce] at h
      obtain ⟨pa, hpa, hq⟩ := ih h
      exact ⟨pa, List.mem_cons_of_mem _ hpa, hq⟩
    · simp only [verdictInForce] at h
      obtain ⟨pa, hpa, hq⟩ := ih h
      exact ⟨pa, List.mem_cons_of_mem _ hpa, hq⟩
    · simp only [verdictInForce, Option.some.injEq, Prod.mk.injEq] at h
      exact ⟨(p, _), List.mem_cons_self _ _, h.1⟩

theorem Inv_initial : Inv Model.initial where
  flag := by simp [Model.initial, State.initial, verdictInForce]
  inflight_entered := by simp [Model.initial]
  answers_entered := by simp [Model.initial]

theorem Inv_step (m m1 : Model) (e : Event) (effects : List Effect) (hi : Inv m)
    (hstep : step m e = some (m1, effects)) : Inv m1 := by
  cases e with
  | pathChange p =>
    simp only [step, Option.some.injEq, Prod.mk.injEq] at hstep
    obtain ⟨rfl, -⟩ := hstep
    refine ⟨?_, ?_, ?_⟩
    · simpa [handleDirectoryChange] using hi.flag
    · intro q hq
      rcases List.mem_append.mp hq with h | h
      · exact List.mem_append_left _ (hi.inflight_entered q h)
      · exact List.mem_append_right _ h
    · intro pa hpa
      exact List.mem_append_left _ (hi.answers_entered pa hpa)
  | validationOutcome p o =>
    by_cases hp : p ∈ m.inflight
    · simp only [step, hp, if_true, Option.some.injEq, Prod.mk.injEq] at hstep
      obtain ⟨rfl, -⟩ := hstep
      refine ⟨?_, ?_, ?_⟩
      · rcases o with _ | ⟨⟨ok, _ | (_ | body)⟩⟩
        · simpa [validateDirectoryResume, verdictInForce] using hi.flag
        · simpa [validateDirectoryResume, verdictInForce] using hi.flag
        · simpa [validateDirectoryResume, verdictInForce] using hi.flag
        · by_cases hb : body.status = some "valid"
          · simp only [validateDirectoryResume, verdictInForce, hb, if_true, true_iff]
            exact ⟨p, body, rfl, hb⟩
          · simp only [validateDirectoryResume, verdictInForce, hb, if_false]
            constructor
            · intro h
              simp at h
            · rintro ⟨q, data, h, hvalid⟩
              simp only [Option.some.injEq, Prod.mk.injEq] at h
              exact absurd (h.2 ▸ hvalid) hb
      · intro q hq
        exact hi.inflight_entered q (List.mem_of_mem_erase hq)
      · intro pa hpa
        rcases List.mem_cons.mp hpa with h | h
        · subst h
          exact hi.inflight_entered p hp
        · exact hi.answers_entered pa h
    · simp [step, hp] at hstep
  | toggle o =>
    simp only [step, Option.some.injEq, Prod.mk.injEq] at hstep
    obtain ⟨rfl, -⟩ := hstep
    refine ⟨?_, hi.inflight_entered, hi.answers_entered⟩
    have hk := (toggleMonitoring_keeps_other_cells m.st o).2.2.1
    simpa [hk] using hi.flag

theorem Inv_run (evs : List Event) (m m1 : Model) (hi : Inv m) (hr : run m evs = some m1) :
    Inv m1 := by
  induction evs generalizing m with
  | nil =>
    simp only [run, Option.some.injEq] at hr
    exact hr ▸ hi
  | cons e rest ih =>
    simp only [run] at hr
    cases hs : step m e with
    | none => simp [hs] at hr
    | some r =>
      simp only [hs] at hr
      exact ih r.1 (Inv_step m r.1 e r.2 hi hs) hr

theorem issuesStart_reads (s : State) (o : Outcome Parsed) (d : String)
    (h : issuesStart s o d) :
    s.isMonitoring = false ∧ s.isValidDirectory = true ∧ d = s.directoryPath := by
  obtain ⟨logs, dark, loading, mon, path, valid, sel⟩ := s
  have hne : ¬ startUrl = stopUrl := by decide
  cases valid
  · simp [issuesStart, toggleMonitoring] at h
  · cases mon
    · rcases o with _ | ⟨⟨_ | _, _ | (_ | data)⟩⟩ <;>
        simp [issuesStart, toggleMonitoring] at h <;> simp [h]
    · rcases o with _ | ⟨⟨_ | _, _ | (_ | data)⟩⟩ <;>
        simp [issuesStart, toggleMonitoring, hne] at h

/-- C7 as stated fails: "/a" is entered, then "/b"; the answer for "/b"
arrives first and says "invalid", the answer for "/a" arrives second and says
"valid".  The flag is true, the entered path is "/b", and pressing the
button sends `POST /start` for "/b" while the verdict in force answers the
request sent for "/a". -/
theorem start_authorised_counterexample :
    run Model.initial
        [Event.pathChange "/a", Event.pathChange "/b",
         Event.validationOutcome "/b" invalidAnswer,
         Event.validationOutcome "/a" validAnswer]
      = some { st := { State.initial with directoryPath := "/b", isValidDirectory := true }
               inflight := []
               entered := ["/a", "/b"]
               answers := [("/a", validAnswer), ("/b", invalidAnswer)] } ∧
    issuesStart { State.initial with directoryPath := "/b", isValidDirectory := true }
      (okAnswer ⟨some "Monitoring started"⟩) "/b" ∧
    verdictInForce [("/a", validAnswer), ("/b", invalidAnswer)]
      = some ("/a", ⟨some "valid"⟩) ∧
    ¬ startAuthorised
        { st := { State.initial with directoryPath := "/b", isValidDirectory := true }
          inflight := []
          entered := ["/a", "/b"]
          answers := [("/a", validAnswer), ("/b", invalidAnswer)] } "/b" := by
  refine ⟨by decide, by decide, by decide, ?_⟩
  rintro ⟨data, h, -⟩
  simp [verdictInForce, validAnswer] at h

/-- C7, amended: in every run of path changes, validation answers arriving in
any order and toggles, a `POST /start` is sent only from a stopped session
whose validity flag is true, it carries the path entered at that moment, and
the verdict in force is a "valid" answer to the validation request sent for
some path entered so far, which need not be the path the request carries. -/
theorem start_only_under_valid_flag (evs : List Event) (m : Model) (o : Outcome Parsed)
    (d : String) (hr : run Model.initial evs = some m) (hs : issuesStart m.st o d) :
    m.st.isMonitoring = false ∧ m.st.isValidDirectory = true ∧ d = m.st.directoryPath ∧
    ∃ q data, q ∈ m.entered ∧ verdictInForce m.answers = some (q, data) ∧
      data.status = some "valid" := by
  have hi := Inv_run evs Model.initial m Inv_initial hr
  obtain ⟨hm, hv, hd⟩ := issuesStart_reads m.st o d hs
  refine ⟨hm, hv, hd, ?_⟩
  obtain ⟨q, data, hq, hvalid⟩ := hi.flag.mp hv
  obtain ⟨pa, hpa, rfl⟩ := verdictInForce_entered m.answers q data hq
  exact ⟨pa.1, data, hi.answers_entered pa hpa, hq, hvalid⟩

/-- C7 amended, at the run where "/tmp" is entered and its validation is
answered "valid": the start request carries "/tmp". -/
theorem start_only_under_valid_flag_witness :
    "/tmp" = (State.mk [] true false false "/tmp" true "").directoryPath :=
  (start_only_under_valid_flag
    [Event.pathChange "/tmp", Event.validationOutcome "/tmp" validAnswer]
    { st := State.mk [] true false false "/tmp" true ""
      inflight := []
      entered := ["/tmp"]
      answers := [("/tmp", validAnswer)] }
    (okAnswer ⟨some "Monitoring started"⟩) "/tmp" (by decide) (by decide)).2.2.1

end SecureTrack
